import Mathlib

/-!
Verification development for the Open-RadiaCode-Android synthetic gamma-spectra
pipeline (`vega_ml/synthetic_spectra`).  The Python sources are shallowly
embedded: machine floats become exact rationals (`ℚ`) where the code only does
field arithmetic, and real numbers (`ℝ`) where it uses transcendental
functions; byte strings become `List ℕ` with every entry below 256; fallible
code returns `Option`/`Except`.
-/

namespace OpenRadiaCode

/-- Python's `int(x)` conversion: truncation toward zero. -/
def pyInt (x : ℚ) : ℤ := if 0 ≤ x then ⌊x⌋ else ⌈x⌉

/-! ## Detector configuration (`synthetic_spectra/config.py`) -/

/-- Embedding of the `DetectorConfig` dataclass of `config.py`, with the same
field defaults. -/
structure DetectorConfig where
  name : String
  energy_min_kev : ℚ := 20
  energy_max_kev : ℚ := 3000
  num_channels : ℕ := 1024
  skip_first_channel : Bool := true
  fwhm_at_662 : ℚ := 84/1000
  fwhm_uncertainty : ℚ := 3/1000
  crystal_type : String := "CsI(Tl)"
  sensitivity_cps_per_usvh : ℚ := 30
  detector_volume_cm3 : ℚ := 1
deriving DecidableEq

namespace DetectorConfig

/-- Embedding of `DetectorConfig.get_channel_width_kev`. -/
def get_channel_width_kev (cfg : DetectorConfig) : ℚ :=
  (cfg.energy_max_kev - cfg.energy_min_kev) / cfg.num_channels

/-- Embedding of `DetectorConfig.get_energy_bins`: centers of the modeled usable channels,
starting from raw channel 1 when `skip_first_channel` is set. -/
def get_energy_bins (cfg : DetectorConfig) : List ℚ :=
  let w := cfg.get_channel_width_kev
  let start : ℕ := if cfg.skip_first_channel then 1 else 0
  (List.range (cfg.num_channels - start)).map
    (fun k => cfg.energy_min_kev + ((start + k : ℕ) + 1/2) * w)

/-- Embedding of `DetectorConfig.energy_to_channel`: convert energy in keV to a modeled
usable channel index, clamped into the usable range. -/
def energy_to_channel (cfg : DetectorConfig) (energy_kev : ℚ) : ℤ :=
  let w := cfg.get_channel_width_kev
  let raw_channel : ℤ := pyInt ((energy_kev - cfg.energy_min_kev) / w)
  let channel : ℤ := if cfg.skip_first_channel then raw_channel - 1 else raw_channel
  let max_channel : ℤ :=
    if cfg.skip_first_channel then (cfg.num_channels : ℤ) - 2
    else (cfg.num_channels : ℤ) - 1
  max 0 (min max_channel channel)

/-- Embedding of `DetectorConfig.channel_to_energy`: convert a modeled usable channel index
back to the energy bin center in keV. -/
def channel_to_energy (cfg : DetectorConfig) (channel : ℤ) : ℚ :=
  let w := cfg.get_channel_width_kev
  let raw_channel : ℤ := channel + (if cfg.skip_first_channel then 1 else 0)
  let raw_clamped : ℤ := max 0 (min ((cfg.num_channels : ℤ) - 1) raw_channel)
  cfg.energy_min_kev + ((raw_clamped : ℚ) + 1/2) * w

end DetectorConfig

/-- Preset `RADIACODE_CONFIGS["radiacode_101"]`. -/
def radiacode_101 : DetectorConfig :=
  { name := "Radiacode 101", fwhm_at_662 := 95/1000, fwhm_uncertainty := 4/1000,
    crystal_type := "CsI(Tl)", sensitivity_cps_per_usvh := 30, detector_volume_cm3 := 1 }

/-- Preset `RADIACODE_CONFIGS["radiacode_102"]`. -/
def radiacode_102 : DetectorConfig :=
  { name := "Radiacode 102", fwhm_at_662 := 95/1000, fwhm_uncertainty := 4/1000,
    crystal_type := "CsI(Tl)", sensitivity_cps_per_usvh := 30, detector_volume_cm3 := 1 }

/-- Preset `RADIACODE_CONFIGS["radiacode_103"]`. -/
def radiacode_103 : DetectorConfig :=
  { name := "Radiacode 103", fwhm_at_662 := 84/1000, fwhm_uncertainty := 3/1000,
    crystal_type := "CsI(Tl)", sensitivity_cps_per_usvh := 30, detector_volume_cm3 := 1 }

/-- Preset `RADIACODE_CONFIGS["radiacode_103g"]`: GAGG crystal, 25 keV minimum energy. -/
def radiacode_103g : DetectorConfig :=
  { name := "Radiacode 103G", energy_min_kev := 25, fwhm_at_662 := 74/1000,
    fwhm_uncertainty := 3/1000, crystal_type := "GAGG(Ce)",
    sensitivity_cps_per_usvh := 40, detector_volume_cm3 := 1 }

/-- Preset `RADIACODE_CONFIGS["radiacode_110"]`. -/
def radiacode_110 : DetectorConfig :=
  { name := "Radiacode 110", fwhm_at_662 := 84/1000, fwhm_uncertainty := 3/1000,
    crystal_type := "CsI(Tl)", sensitivity_cps_per_usvh := 77, detector_volume_cm3 := 5/2 }

/-- The value list of the `RADIACODE_CONFIGS` dict, in registration order. -/
def RADIACODE_CONFIGS : List DetectorConfig :=
  [radiacode_101, radiacode_102, radiacode_103, radiacode_103g, radiacode_110]

/-! ## Isotope database (`ground_truth/isotope_data.py`)

The `ISOTOPE_DATABASE` dict registers 82 isotopes in a fixed order.  For the
label codec only each isotope's name and whether its `gamma_lines` list is
nonempty matter, so the embedding records exactly that, in registration
order. -/

/-- The 82 `_add_isotope` registrations of `isotope_data.py`, in order:
`(name, gamma_lines ≠ [])`. -/
def ISOTOPE_DATABASE : List (String × Bool) := [
  ("K-40", true), ("Be-7", true), ("C-14", false), ("Na-22", true),
  ("U-238", true), ("Th-234", true), ("Pa-234m", true), ("U-234", true),
  ("Th-230", true), ("Ra-226", true), ("Rn-222", true), ("Po-218", false),
  ("Pb-214", true), ("Bi-214", true), ("Po-214", true), ("Pb-210", true),
  ("Bi-210", false), ("Po-210", true), ("Th-232", true), ("Ra-228", false),
  ("Ac-228", true), ("Th-228", true), ("Ra-224", true), ("Rn-220", true),
  ("Po-216", false), ("Pb-212", true), ("Bi-212", true), ("Tl-208", true),
  ("Po-212", false), ("U-235", true), ("Th-231", true), ("Pa-231", true),
  ("Ac-227", false), ("Pb-211", true), ("Bi-211", true), ("Tl-207", true),
  ("Am-241", true), ("Cs-137", true), ("Ba-137m", true), ("Co-60", true),
  ("Ba-133", true), ("Cd-109", true), ("Eu-152", true), ("Eu-154", true),
  ("Mn-54", true), ("Zn-65", true), ("Co-57", true), ("Sr-85", true),
  ("Y-88", true), ("Ce-139", true), ("Sn-113", true), ("Hg-203", true),
  ("Se-75", true), ("Ir-192", true), ("Tc-99m", true), ("I-131", true),
  ("I-123", true), ("F-18", true), ("Ga-67", true), ("In-111", true),
  ("Tl-201", true), ("Lu-177", true), ("Sm-153", true), ("Xe-133", true),
  ("Ra-223", true), ("Cs-134", true), ("Ru-106", false), ("Rh-106", true),
  ("Ce-144", true), ("Pr-144", true), ("Sb-125", true), ("Co-58", true),
  ("Sr-90", false), ("Y-90", false), ("I-129", true), ("Fe-59", true),
  ("Cr-51", true), ("Ta-182", true), ("Sc-46", true), ("Au-198", true),
  ("Ag-110m", true), ("Hf-181", true)]

/-! ## Compact binary label format (`generate_spectra_v4.py`) -/

/-- List `_all_isotopes` of `generate_spectra_v4.py`: the database entries whose
`gamma_lines` list is nonempty, in registration order.  `ISOTOPE_INDEX` maps
the n-th name here to n and `INDEX_TO_ISOTOPE` is its inverse. -/
def masterIsotopes : List String :=
  (ISOTOPE_DATABASE.filter (fun p => p.2)).map (fun p => p.1)

/-- Lookup `ISOTOPE_INDEX.get(iso, 0)`: the master-list index of a name, 0 if the
name is absent. -/
def isotopeIndexOf (iso : String) : ℕ :=
  if iso ∈ masterIsotopes then masterIsotopes.indexOf iso else 0

/-- Lookup `INDEX_TO_ISOTOPE.get(idx, ...)`, falling back to an Unknown-idx name. -/
def indexToIsotope (idx : ℕ) : String :=
  if h : idx < masterIsotopes.length then masterIsotopes.get ⟨idx, h⟩
  else "Unknown-" ++ toString idx

/-- The boolean flags packed into the final label byte.  The Python code reads
them from a dict with `flags.get(key, True)`; every caller supplies all four
keys, so the embedding is a record. -/
structure LabelFlags where
  normalized : Bool
  include_k40 : Bool
  include_radon : Bool
  include_thorium : Bool
deriving DecidableEq

/-- The uint16 stored for one activity by `pack_labels`:
`scaled = int(min(activity, 1000.0) * 65.535)` then clamped into
`[0, 65535]` (65.535 = 65535/1000). -/
def packedActivity (activity : ℚ) : ℕ :=
  (max 0 (min 65535 (pyInt (min activity 1000 * (65535/1000))))).toNat

/-- The two little-endian bytes `struct.pack('<H', scaled)` produces. -/
def u16le (scaled : ℕ) : List ℕ := [scaled % 256, scaled / 256 % 256]

/-- The decoder's inverse for one stored activity: `scaled / 65.535`. -/
def decodedActivity (scaled : ℕ) : ℚ := scaled / (65535/1000)

/-- The flags bitfield byte written by `pack_labels`
(bit 0 normalized, bit 1 k40, bit 2 radon, bit 3 thorium). -/
def packFlags (flags : LabelFlags) : ℕ :=
  (if flags.normalized then 1 else 0) +
  (if flags.include_k40 then 2 else 0) +
  (if flags.include_radon then 4 else 0) +
  (if flags.include_thorium then 8 else 0)

/-- Embedding of `pack_labels(isotopes, activities, flags)`: one count byte, the isotope
indices of the first 255 names, their activities as little-endian uint16, and
the flag byte.  The activities dict is embedded as a total function since the
code only calls `activities.get(iso, 0.0)`. -/
def pack_labels (isotopes : List String) (activities : String → ℚ)
    (flags : LabelFlags) : List ℕ :=
  [min isotopes.length 255] ++
  (isotopes.take 255).map (fun iso => isotopeIndexOf iso) ++
  (isotopes.take 255).flatMap (fun iso => u16le (packedActivity (activities iso))) ++
  [packFlags flags]

/-- The result of `unpack_labels`: the isotope name list, the
`(name, activity)` pairs inserted into the activities dict in order, and the
four flag bits.  Python keys the activities by name with later occurrences
overwriting earlier ones; the pair list retains the full insertion sequence. -/
structure UnpackedLabel where
  isotopes : List String
  activityPairs : List (String × ℚ)
  normalized : Bool
  include_k40 : Bool
  include_radon : Bool
  include_thorium : Bool
deriving DecidableEq

/-- Embedding of `unpack_labels(data)`.  Python indexes `data` positionally and would raise
on truncated input, so the embedding returns `none` when `data` is shorter
than the layout requires. -/
def unpack_labels (data : List ℕ) : Option UnpackedLabel :=
  match data with
  | [] => none
  | num_iso :: _ =>
    if 2 + 3 * num_iso ≤ data.length then
      let isotopes := (List.range num_iso).map
        (fun k => indexToIsotope (data.getD (1 + k) 0))
      let activityOf : ℕ → ℚ := fun k =>
        decodedActivity (data.getD (1 + num_iso + 2 * k) 0 +
          256 * data.getD (1 + num_iso + 2 * k + 1) 0)
      let flags := data.getD (1 + 3 * num_iso) 0
      some
        { isotopes := isotopes
          activityPairs := (List.range num_iso).map
            (fun k => (isotopes.getD k "", activityOf k))
          normalized := Nat.testBit flags 0
          include_k40 := Nat.testBit flags 1
          include_radon := Nat.testBit flags 2
          include_thorium := Nat.testBit flags 3 }
    else none

/-! ## Scenario pools and the fallout scenario (`generate_spectra_v4.py`) -/

/-- The `CHERNOBYL_FUKUSHIMA` pool. -/
def CHERNOBYL_FUKUSHIMA : List String := ["Cs-137", "Cs-134"]

/-- The `FRESH_FALLOUT` pool. -/
def FRESH_FALLOUT : List String := ["I-131", "Cs-137", "Cs-134", "Zr-95", "Nb-95"]

/-- Embedding of `get_valid_isotopes`: keep the names present in `ISOTOPE_INDEX`. -/
def get_valid_isotopes (isotope_list : List String) : List String :=
  isotope_list.filter (fun name => name ∈ masterIsotopes)

/-- Pool `VALID_FALLOUT = get_valid_isotopes(CHERNOBYL_FUKUSHIMA + FRESH_FALLOUT)`. -/
def VALID_FALLOUT : List String :=
  get_valid_isotopes (CHERNOBYL_FUKUSHIMA ++ FRESH_FALLOUT)

/-- Embedding of the `IsotopeSource` dataclass fields used here. -/
structure IsotopeSource where
  isotope_name : String
  activity_bq : ℚ
  include_daughters : Bool
deriving DecidableEq

/-- Embedding of `generate_fallout(rng, activity_range)` with the four random draws made
explicit, in the order the code draws them: `cs137_activity` from
`rng.uniform(*activity_range)`, `age_factor` from `rng.uniform(0.1, 1.0)`,
`r` from `rng.random()`, and `i131_activity` from `rng.uniform(1, 50)`. -/
def generate_fallout (cs137_activity age_factor r i131_activity : ℚ) :
    List IsotopeSource :=
  let cs134_activity := cs137_activity * age_factor
  (if "Cs-137" ∈ VALID_FALLOUT then [⟨"Cs-137", cs137_activity, true⟩] else []) ++
  (if "Cs-134" ∈ VALID_FALLOUT ∧ 1/2 < cs134_activity
    then [⟨"Cs-134", cs134_activity, true⟩] else []) ++
  (if r < 3/10 ∧ "I-131" ∈ VALID_FALLOUT then [⟨"I-131", i131_activity, true⟩] else [])

/-! ## Decay-chain signatures (`ground_truth/decay_chains.py`) -/

/-- Embedding of the `ChainSignature` dataclass; the Python daughter sets
become finite sets of names. -/
structure ChainSignature where
  name : String
  parent_chain : String
  inferred_parent : String
  required_daughters : Finset String
  optional_daughters : Finset String := ∅
  description : String := ""

/-- The `CHAIN_SIGNATURES` dict values, in registration order. -/
def CHAIN_SIGNATURES : List ChainSignature := [
  { name := "Radon-222 Progeny", parent_chain := "U-238", inferred_parent := "Rn-222",
    required_daughters := {"Pb-214", "Bi-214"}, optional_daughters := {"Po-214"},
    description := "Pb-214 + Bi-214 indicates airborne Rn-222 (radon) daughters" },
  { name := "Ra-226 Secular Equilibrium", parent_chain := "U-238",
    inferred_parent := "Ra-226", required_daughters := {"Pb-214", "Bi-214"},
    optional_daughters := {"Rn-222", "Po-214", "Pb-210"},
    description := "Indicates Ra-226 or U-238 in secular equilibrium" },
  { name := "Thoron (Rn-220) Progeny", parent_chain := "Th-232",
    inferred_parent := "Rn-220", required_daughters := {"Pb-212", "Bi-212"},
    optional_daughters := {"Tl-208", "Po-212"},
    description := "Pb-212 + Bi-212 indicates Rn-220 (thoron) daughters" },
  { name := "Th-232 Secular Equilibrium", parent_chain := "Th-232",
    inferred_parent := "Th-232",
    required_daughters := {"Ac-228", "Pb-212", "Tl-208"},
    optional_daughters := {"Bi-212", "Ra-224"},
    description := "Ac-228 + Pb-212 + Tl-208 indicates Th-232 chain in equilibrium" },
  { name := "U-235 Direct", parent_chain := "U-235", inferred_parent := "U-235",
    required_daughters := {"U-235"}, optional_daughters := {"Th-231", "Pa-231"},
    description := "U-235 directly visible via 185.7 keV line" }]

/-- Stable insertion (descending by key): the new element goes after every
element with a strictly larger key and before the first element whose key is
not larger, so elements with equal keys keep their relative order. -/
def insertDesc {α : Type} (key : α → ℚ) (x : α) : List α → List α
  | [] => [x]
  | y :: ys => if key x < key y then y :: insertDesc key x ys else x :: y :: ys

/-- Stable descending sort by key, the behavior of Python's stable
`list.sort(key=..., reverse=True)`. -/
def sortDescBy {α : Type} (key : α → ℚ) (l : List α) : List α :=
  l.foldr (insertDesc key) []

/-- The pre-sort result list of `infer_parent_from_daughters`: for each
registered signature with a nonempty required-daughter overlap, the inferred
parent, the signature, and the confidence computed exactly as in the code. -/
def inferParentResults (detected : Finset String) :
    List (String × ChainSignature × ℚ) :=
  CHAIN_SIGNATURES.filterMap (fun signature =>
    let required_found := detected ∩ signature.required_daughters
    if 0 < required_found.card then
      let confidence : ℚ := required_found.card / signature.required_daughters.card
      let optional_found := detected ∩ signature.optional_daughters
      let confidence :=
        if 0 < signature.optional_daughters.card then
          min 1 (confidence +
            1/10 * optional_found.card / signature.optional_daughters.card)
        else confidence
      some (signature.inferred_parent, signature, confidence)
    else none)

/-- Embedding of `infer_parent_from_daughters(detected_isotopes)`: the per-signature
results sorted by confidence, highest first, with Python's stable sort. -/
def infer_parent_from_daughters (detected_isotopes : Finset String) :
    List (String × ChainSignature × ℚ) :=
  sortDescBy (fun e => e.2.2) (inferParentResults detected_isotopes)

/-- Confidence rule as the spec words it: `|required ∩ detected| / |required|`,
plus `0.1 × |optional ∩ detected| / |optional|` when the optional set is
nonempty, capped at 1.0. -/
def specConfidence (signature : ChainSignature) (detected : Finset String) : ℚ :=
  min 1 (((detected ∩ signature.required_daughters).card : ℚ) /
      (signature.required_daughters.card : ℚ) +
    (if signature.optional_daughters.Nonempty then
      (1/10 : ℚ) * ((detected ∩ signature.optional_daughters).card : ℚ) /
        (signature.optional_daughters.card : ℚ)
    else 0))

/-- Parent inference as the spec words it: one entry per registered signature
whose required set meets the detected set, with `specConfidence`, stably
sorted by descending confidence. -/
def inferParentSpec (detected : Finset String) :
    List (String × ChainSignature × ℚ) :=
  sortDescBy (fun e => e.2.2)
    (CHAIN_SIGNATURES.filterMap (fun signature =>
      if ((detected ∩ signature.required_daughters).Nonempty) then
        some (signature.inferred_parent, signature, specConfidence signature detected)
      else none))

/-! ## Detector efficiency (`physics/spectrum_physics.py`) -/

/-- Embedding of `detector_efficiency(energy_kev, detector_config)`: 0 below a hardcoded
20 keV, otherwise the phenomenological absorption-vs-escape curve scaled by
the cube root of the detector volume and clipped into [0, 1]. -/
noncomputable def detector_efficiency (cfg : DetectorConfig) (energy_kev : ℝ) : ℝ :=
  if energy_kev < 20 then 0
  else
    let low_eff := 1 - Real.exp (-energy_kev / 50)
    let high_eff := Real.exp (-energy_kev / 2000)
    let eff := 0.8 * low_eff * high_eff
    let volume_factor := Real.rpow ((cfg.detector_volume_cm3 : ℝ) / 1) (1/3)
    max 0 (min 1 (eff * min 1 volume_factor))

/-! ## Spectrum normalization (`physics/spectrum_physics.py`) -/

/-- Embedding of `numpy.ndarray.max()`: the maximum entry, an error on an empty array. -/
noncomputable def npMax (l : List ℝ) : Except String ℝ :=
  match l with
  | [] => Except.error "zero-size array to reduction operation maximum"
  | x :: xs => Except.ok (xs.foldl max x)

/-- Embedding of `normalize_spectrum(spectrum, method)`; the `raise ValueError` branch
becomes `Except.error`, as does the empty-array error `numpy` raises inside
`.max()`. -/
noncomputable def normalize_spectrum (spectrum : List ℝ) (method : String) :
    Except String (List ℝ) :=
  if method = "max" then
    match npMax spectrum with
    | Except.error e => Except.error e
    | Except.ok max_val =>
      Except.ok (if 0 < max_val then spectrum.map (fun x => x / max_val) else spectrum)
  else if method = "sum" then
    let total := spectrum.sum
    Except.ok (if 0 < total then spectrum.map (fun x => x / total) else spectrum)
  else if method = "log" then
    let log_spec := spectrum.map (fun x => Real.log (1 + x))
    match npMax log_spec with
    | Except.error e => Except.error e
    | Except.ok max_val =>
      Except.ok (if 0 < max_val then log_spec.map (fun x => x / max_val) else log_spec)
  else if method = "sqrt" then
    let sqrt_spec := spectrum.map Real.sqrt
    match npMax sqrt_spec with
    | Except.error e => Except.error e
    | Except.ok max_val =>
      Except.ok (if 0 < max_val then sqrt_spec.map (fun x => x / max_val) else sqrt_spec)
  else Except.error ("Unknown normalization method: " ++ method)

/-! ## Poisson noise and the determinism contract (`spectrum_physics.py`) -/

/-- Embedding of `apply_poisson_noise(spectrum)`: each channel is replaced by
`np.random.poisson(max(0, lambda))`.  `np.random.poisson` samples from the
process-global NumPy generator — not from the per-sample generator
`np.random.default_rng(base_seed + sample_idx)` that
`generate_single_sample_v4` creates — so the embedding passes the global
generator as a draw oracle from channel position and clamped expectation to
the sampled count. -/
def apply_poisson_noise (globalDraw : ℕ → ℚ → ℕ) (spectrum : List ℚ) : List ℚ :=
  (List.range spectrum.length).map
    (fun k => (globalDraw k (max 0 (spectrum.getD k 0)) : ℚ))

end OpenRadiaCode

namespace OpenRadiaCode

/-- C2: the Poisson stage's output is decided by the global-generator
draws, with the per-sample seed nowhere in sight. -/
theorem apply_poisson_noise_uses_global_rng :
    apply_poisson_noise (fun _ _ => 0) [1] ≠ apply_poisson_noise (fun _ _ => 1) [1] := by
  decide

/-- C6: fallout scenario membership rules. -/
theorem generate_fallout_rules (a f r x : ℚ) :
    ((∃ s ∈ generate_fallout a f r x, s.isotope_name = "Cs-134") ↔ 1/2 < a * f) ∧
    (∀ s ∈ generate_fallout a f r x, s.isotope_name = "Cs-134" → s.activity_bq = a * f) ∧
    ((∃ s ∈ generate_fallout a f r x, s.isotope_name = "I-131") ↔ r < 3/10) := by
  have h134 : "Cs-134" ∈ VALID_FALLOUT := by decide
  have h131 : "I-131" ∈ VALID_FALLOUT := by decide
  have h137 : "Cs-137" ∈ VALID_FALLOUT := by decide
  unfold generate_fallout
  by_cases hc : 1/2 < a * f <;> by_cases hr : r < 3/10 <;>
    simp [h134, h131, h137, hc, hr, one_div] <;>
    aesop

end OpenRadiaCode

namespace OpenRadiaCode

/-- C10: the clamped channel index stays within the usable range. -/
theorem energy_to_channel_bounds (cfg : DetectorConfig)
    (h : 2 ≤ cfg.num_channels) (E : ℚ) :
    0 ≤ cfg.energy_to_channel E ∧
    cfg.energy_to_channel E ≤ (if cfg.skip_first_channel then (cfg.num_channels : ℤ) - 2
      else (cfg.num_channels : ℤ) - 1) ∧
    (cfg.energy_to_channel E).toNat < cfg.get_energy_bins.length := by
  have hlen : cfg.get_energy_bins.length
      = cfg.num_channels - (if cfg.skip_first_channel then 1 else 0) := by
    simp [DetectorConfig.get_energy_bins]
  unfold DetectorConfig.energy_to_channel
  cases hski : cfg.skip_first_channel <;> simp [hski] at hlen ⊢ <;> omega

theorem energy_to_channel_bounds_witness :
    2 ≤ radiacode_103.num_channels ∧
      (0 ≤ radiacode_103.energy_to_channel 500000 ∧
       radiacode_103.energy_to_channel 500000 ≤
         (if radiacode_103.skip_first_channel then (radiacode_103.num_channels : ℤ) - 2
          else (radiacode_103.num_channels : ℤ) - 1) ∧
       (radiacode_103.energy_to_channel 500000).toNat < radiacode_103.get_energy_bins.length) :=
  ⟨by decide, energy_to_channel_bounds radiacode_103 (by decide) 500000⟩

end OpenRadiaCode

namespace OpenRadiaCode

/-- C5 counterexample: for the 103G preset (configured minimum 25 keV) the
efficiency at 22 keV is nonzero, because the code's cutoff is a hardcoded
20 keV, not the configured minimum. -/
theorem detector_efficiency_pos_below_config_min :
    (22 : ℚ) < radiacode_103g.energy_min_kev ∧
    detector_efficiency radiacode_103g 22 ≠ 0 := by
  constructor
  · decide
  · unfold detector_efficiency
    rw [if_neg (by norm_num)]
    have hvol : ((radiacode_103g.detector_volume_cm3 : ℚ) : ℝ) = 1 := by
      norm_num [radiacode_103g]
    rw [hvol]
    have hrpow : Real.rpow ((1 : ℝ) / 1) (1/3) = 1 := by
      norm_num [Real.one_rpow]
    rw [hrpow]
    have h1 : Real.exp (-(22:ℝ) / 50) < 1 := by
      rw [Real.exp_lt_one_iff]; norm_num
    have h2 : (0:ℝ) < Real.exp (-(22:ℝ) / 2000) := Real.exp_pos _
    have heff : (0:ℝ) < 0.8 * (1 - Real.exp (-(22:ℝ) / 50)) * Real.exp (-(22:ℝ) / 2000) := by
      have : (0:ℝ) < 1 - Real.exp (-(22:ℝ) / 50) := by linarith
      positivity
    have hmin : (0:ℝ) < min 1 (0.8 * (1 - Real.exp (-(22:ℝ) / 50)) * Real.exp (-(22:ℝ) / 2000) * min 1 1) := by
      simp only [min_self]
      exact lt_min (by norm_num) (by simpa using heff)
    have : (0:ℝ) < max 0 (min 1 (0.8 * (1 - Real.exp (-(22:ℝ) / 50)) * Real.exp (-(22:ℝ) / 2000) * min 1 1)) :=
      lt_max_of_lt_right hmin
    exact ne_of_gt this

/-- C5 amended: the efficiency always lies in [0, 1], and is zero below the
hardcoded 20 keV threshold. -/
theorem detector_efficiency_bounds (cfg : DetectorConfig) (E : ℝ) :
    (0 ≤ detector_efficiency cfg E ∧ detector_efficiency cfg E ≤ 1) ∧
    (E < 20 → detector_efficiency cfg E = 0) := by
  unfold detector_efficiency
  by_cases h : E < 20
  · simp [h]
  · rw [if_neg h]
    refine ⟨⟨le_max_left _ _, max_le (by norm_num) (min_le_left _ _)⟩, fun hE => absurd hE h⟩

theorem detector_efficiency_bounds_witness :
    (10 : ℝ) < 20 ∧ detector_efficiency radiacode_103 10 = 0 :=
  ⟨by norm_num, (detector_efficiency_bounds radiacode_103 10).2 (by norm_num)⟩

end OpenRadiaCode

namespace OpenRadiaCode

/-- For a nonnegative activity the stored uint16 is the floor (truncation) of
`min(a, 1000) * 65.535`, and the `[0, 65535]` clamp is a no-op. -/
theorem packedActivity_eq_floor (a : ℚ) (ha : 0 ≤ a) :
    (packedActivity a : ℤ) = ⌊min a 1000 * (65535/1000)⌋ := by
  unfold packedActivity pyInt
  have hx : (0:ℚ) ≤ min a 1000 * (65535/1000) := by
    have : (0:ℚ) ≤ min a 1000 := le_min ha (by norm_num)
    positivity
  rw [if_pos hx]
  have h0 : (0:ℤ) ≤ ⌊min a 1000 * (65535/1000)⌋ := Int.floor_nonneg.mpr hx
  have hub : ⌊min a 1000 * (65535/1000)⌋ ≤ 65535 := by
    have hle : min a 1000 * (65535/1000) ≤ (65535 : ℚ) := by
      have h1 : min a 1000 ≤ (1000:ℚ) := min_le_right _ _
      nlinarith
    calc ⌊min a 1000 * (65535/1000)⌋ ≤ ⌊(65535:ℚ)⌋ := Int.floor_le_floor hle
    _ = 65535 := by norm_num
  omega

/-- C7 counterexample: at activity 1 Bq the stored value is the truncation 65,
not the rounding 66 of 65.535. -/
theorem packedActivity_ne_round :
    (packedActivity 1 : ℤ) ≠ round ((min (1:ℚ) 1000) * (65535/1000)) := by
  have h1 : (packedActivity 1 : ℤ) = 65 := by norm_num [packedActivity, pyInt]
  have h2 : round ((min (1:ℚ) 1000) * (65535/1000)) = 66 := by
    rw [round_eq]
    norm_num
  rw [h1, h2]
  decide

/-- C7 amended: the stored uint16 truncates (floors) `min(a,1000) × 65.535`,
so every activity at or above 1000 Bq saturates to 65535, and the decoder's
inverse is `stored / 65.535`. -/
theorem packedActivity_truncates (a : ℚ) (ha : 0 ≤ a) :
    (packedActivity a : ℤ) = ⌊min a 1000 * (65535/1000)⌋ ∧
    (1000 ≤ a → packedActivity a = 65535) ∧
    (∀ scaled : ℕ, decodedActivity scaled = scaled * (1000/65535)) := by
  refine ⟨packedActivity_eq_floor a ha, fun h1000 => ?_, fun scaled => ?_⟩
  · have : min a 1000 = 1000 := min_eq_right h1000
    have h := packedActivity_eq_floor a ha
    rw [this] at h
    norm_num at h
    omega
  · unfold decodedActivity
    rw [div_div_eq_mul_div, mul_div_assoc]

theorem packedActivity_truncates_witness :
    (0:ℚ) ≤ 1 ∧ ((packedActivity 1 : ℤ) = ⌊min (1:ℚ) 1000 * (65535/1000)⌋ ∧
      (1000 ≤ (1:ℚ) → packedActivity 1 = 65535) ∧
      (∀ scaled : ℕ, decodedActivity scaled = scaled * (1000/65535))) :=
  ⟨by norm_num, packedActivity_truncates 1 (by norm_num)⟩

end OpenRadiaCode

namespace OpenRadiaCode

/-- C3 counterexample: at the bottom of the configured range the round trip
misses by 1.5 channel widths, because the first raw channel is skipped and the
clamp sends the computed usable index -1 back to 0. -/
theorem calibration_roundtrip_fails_at_min :
    ¬ |radiacode_103.channel_to_energy (radiacode_103.energy_to_channel 20) - 20| <
      radiacode_103.get_channel_width_kev := by
  have h1 : radiacode_103.energy_to_channel 20 = 0 := by
    norm_num [DetectorConfig.energy_to_channel, DetectorConfig.get_channel_width_kev,
      radiacode_103, pyInt]
  rw [h1, not_lt]
  refine le_trans ?_ (le_abs_self _)
  norm_num [DetectorConfig.channel_to_energy, DetectorConfig.get_channel_width_kev,
    radiacode_103]

/-- C3 amended: for energies at least one channel width above the configured
minimum (and up to the maximum), the round trip lands within one channel
width. -/
theorem calibration_roundtrip_within_one_width (cfg : DetectorConfig)
    (hskip : cfg.skip_first_channel = true) (hN : 2 ≤ cfg.num_channels)
    (hrange : cfg.energy_min_kev < cfg.energy_max_kev) (E : ℚ)
    (hlo : cfg.energy_min_kev + cfg.get_channel_width_kev ≤ E)
    (hhi : E ≤ cfg.energy_max_kev) :
    |cfg.channel_to_energy (cfg.energy_to_channel E) - E| <
      cfg.get_channel_width_kev := by
  have hN2 : (2:ℤ) ≤ (cfg.num_channels : ℤ) := by exact_mod_cast hN
  have hNpos : (0:ℚ) < (cfg.num_channels : ℚ) := by
    have h0 : 0 < cfg.num_channels := by omega
    exact_mod_cast h0
  have hwpos : 0 < cfg.get_channel_width_kev := by
    unfold DetectorConfig.get_channel_width_kev
    exact div_pos (by linarith) hNpos
  have hNw : (cfg.num_channels : ℚ) * cfg.get_channel_width_kev
      = cfg.energy_max_kev - cfg.energy_min_kev := by
    unfold DetectorConfig.get_channel_width_kev
    field_simp
  have hx0 : (1:ℚ) ≤ (E - cfg.energy_min_kev) / cfg.get_channel_width_kev := by
    rw [le_div_iff₀ hwpos]; linarith
  have hxN : (E - cfg.energy_min_kev) / cfg.get_channel_width_kev
      ≤ (cfg.num_channels : ℚ) := by
    rw [div_le_iff₀ hwpos]; linarith
  have hrx : (⌊(E - cfg.energy_min_kev) / cfg.get_channel_width_kev⌋ : ℚ)
      ≤ (E - cfg.energy_min_kev) / cfg.get_channel_width_kev := Int.floor_le _
  have hxr : (E - cfg.energy_min_kev) / cfg.get_channel_width_kev
      < ⌊(E - cfg.energy_min_kev) / cfg.get_channel_width_kev⌋ + 1 :=
    Int.lt_floor_add_one _
  have hr1 : 1 ≤ ⌊(E - cfg.energy_min_kev) / cfg.get_channel_width_kev⌋ :=
    Int.le_floor.mpr (by exact_mod_cast hx0)
  have hrN : ⌊(E - cfg.energy_min_kev) / cfg.get_channel_width_kev⌋
      ≤ (cfg.num_channels : ℤ) := by
    have h := Int.floor_le_floor hxN
    simpa using h
  have hxw : ((E - cfg.energy_min_kev) / cfg.get_channel_width_kev)
      * cfg.get_channel_width_kev = E - cfg.energy_min_kev :=
    div_mul_cancel₀ _ (ne_of_gt hwpos)
  have he2c : cfg.energy_to_channel E
      = max 0 (min ((cfg.num_channels : ℤ) - 2)
          (⌊(E - cfg.energy_min_kev) / cfg.get_channel_width_kev⌋ - 1)) := by
    unfold DetectorConfig.energy_to_channel pyInt
    rw [hskip]
    simp only [if_true]
    rw [if_pos (by linarith)]
  have hm : max 0 (min ((cfg.num_channels : ℤ) - 1)
        (max 0 (min ((cfg.num_channels : ℤ) - 2)
          (⌊(E - cfg.energy_min_kev) / cfg.get_channel_width_kev⌋ - 1)) + 1))
      = min ((cfg.num_channels : ℤ) - 1)
          ⌊(E - cfg.energy_min_kev) / cfg.get_channel_width_kev⌋ := by
    omega
  have hc2e : cfg.channel_to_energy (cfg.energy_to_channel E)
      = cfg.energy_min_kev + (((min ((cfg.num_channels : ℤ) - 1)
          ⌊(E - cfg.energy_min_kev) / cfg.get_channel_width_kev⌋ : ℤ) : ℚ) + 1/2)
          * cfg.get_channel_width_kev := by
    unfold DetectorConfig.channel_to_energy
    rw [hskip, he2c]
    simp only [if_true]
    rw [hm]
  rw [hc2e]
  rcases le_or_lt ⌊(E - cfg.energy_min_kev) / cfg.get_channel_width_kev⌋
      ((cfg.num_channels : ℤ) - 1) with hcase | hcase
  · rw [min_eq_right hcase, abs_lt]
    constructor <;> nlinarith [hrx, hxr, hwpos, hxw]
  · have hrEq : ⌊(E - cfg.energy_min_kev) / cfg.get_channel_width_kev⌋
        = (cfg.num_channels : ℤ) := by omega
    have hxEq : (E - cfg.energy_min_kev) / cfg.get_channel_width_kev
        = (cfg.num_channels : ℚ) := by
      refine le_antisymm hxN ?_
      rw [hrEq] at hrx
      exact_mod_cast hrx
    rw [min_eq_left (by omega), abs_lt]
    push_cast
    constructor <;> nlinarith [hwpos, hxw, hxEq]

theorem calibration_roundtrip_witness :
    (radiacode_103.skip_first_channel = true ∧ 2 ≤ radiacode_103.num_channels ∧
      radiacode_103.energy_min_kev < radiacode_103.energy_max_kev ∧
      radiacode_103.energy_min_kev + radiacode_103.get_channel_width_kev ≤ 500 ∧
      (500:ℚ) ≤ radiacode_103.energy_max_kev) ∧
    |radiacode_103.channel_to_energy (radiacode_103.energy_to_channel 500) - 500| <
      radiacode_103.get_channel_width_kev :=
  ⟨⟨by decide, by decide, by decide,
    by norm_num [DetectorConfig.get_channel_width_kev, radiacode_103], by decide⟩,
   calibration_roundtrip_within_one_width radiacode_103 (by decide) (by decide)
     (by decide) 500
     (by norm_num [DetectorConfig.get_channel_width_kev, radiacode_103]) (by decide)⟩

end OpenRadiaCode

namespace OpenRadiaCode

/-- Summing after dividing every entry by a constant divides the sum. -/
theorem sum_map_div (l : List ℝ) (t : ℝ) :
    (l.map (fun x => x / t)).sum = l.sum / t := by
  induction l with
  | nil => simp
  | cons a l ih => simp [ih, add_div]

/-- C8 counterexample: a recognized method can still fail, because
`numpy.max` raises on an empty array. -/
theorem normalize_spectrum_error_on_empty :
    normalize_spectrum [] "max"
      = Except.error "zero-size array to reduction operation maximum" := by
  simp [normalize_spectrum, npMax]

/-- C8 amended: on a nonempty spectrum the call succeeds exactly for the four
recognized methods, and the sum method on a positive-total spectrum returns a
probability mass summing to 1. -/
theorem normalize_spectrum_methods (spectrum : List ℝ) (method : String)
    (hne : spectrum ≠ []) :
    ((∃ out, normalize_spectrum spectrum method = Except.ok out) ↔
      (method = "max" ∨ method = "sum" ∨ method = "log" ∨ method = "sqrt")) ∧
    (0 < spectrum.sum →
      ∃ out, normalize_spectrum spectrum "sum" = Except.ok out ∧ out.sum = 1) := by
  obtain ⟨x, xs, rfl⟩ := List.exists_cons_of_ne_nil hne
  constructor
  · by_cases h1 : method = "max"
    · subst h1
      simp [normalize_spectrum, npMax]
    · by_cases h2 : method = "sum"
      · subst h2
        simp [normalize_spectrum, npMax]
      · by_cases h3 : method = "log"
        · subst h3
          simp [normalize_spectrum, npMax]
        · by_cases h4 : method = "sqrt"
          · subst h4
            simp [normalize_spectrum, npMax]
          · simp [normalize_spectrum, h1, h2, h3, h4]
  · intro hsum
    refine ⟨(x :: xs).map (fun y => y / (x :: xs).sum), ?_, ?_⟩
    · simp only [normalize_spectrum]
      rw [if_neg (by decide : ¬ ("sum" = "max"))]
      simp only [if_true]
      rw [if_pos hsum]
    · rw [sum_map_div, div_self (ne_of_gt hsum)]

theorem normalize_spectrum_methods_witness :
    ([(2:ℝ)] ≠ []) ∧
    (((∃ out, normalize_spectrum [(2:ℝ)] "sum" = Except.ok out) ↔
        ("sum" = "max" ∨ "sum" = "sum" ∨ "sum" = "log" ∨ "sum" = "sqrt")) ∧
     (0 < [(2:ℝ)].sum →
       ∃ out, normalize_spectrum [(2:ℝ)] "sum" = Except.ok out ∧ out.sum = 1)) :=
  ⟨by simp, normalize_spectrum_methods [(2:ℝ)] "sum" (by simp)⟩

end OpenRadiaCode

namespace OpenRadiaCode

/-- C9: an unknown isotope name silently encodes as index 0 and decodes as the
master list's index-0 isotope, K-40, so the decoded list differs from the
input whenever the unknown name is not itself K-40. -/
theorem pack_labels_unknown_isotope (name : String) (h : name ∉ masterIsotopes)
    (activities : String → ℚ) (flags : LabelFlags) :
    isotopeIndexOf name = 0 ∧
    ∃ u, unpack_labels (pack_labels [name] activities flags) = some u ∧
      u.isotopes = ["K-40"] ∧ (name ≠ "K-40" → u.isotopes ≠ [name]) := by
  have hidx : isotopeIndexOf name = 0 := by
    unfold isotopeIndexOf
    rw [if_neg h]
  refine ⟨hidx, ?_⟩
  have hpack : pack_labels [name] activities flags
      = [1, 0, packedActivity (activities name) % 256,
         packedActivity (activities name) / 256 % 256, packFlags flags] := by
    simp [pack_labels, u16le, hidx]
  rw [hpack]
  have hk40 : indexToIsotope 0 = "K-40" := by decide
  refine ⟨_, rfl, ?_, ?_⟩
  · simp [unpack_labels, List.range_succ, hk40]
  · intro hne
    simp [unpack_labels, List.range_succ, hk40, hne]
    intro hcon
    exact absurd hcon.symm hne

theorem pack_labels_unknown_isotope_witness :
    ("Ga-68" ∉ masterIsotopes) ∧
    (isotopeIndexOf "Ga-68" = 0 ∧
     ∃ u, unpack_labels (pack_labels ["Ga-68"] (fun _ => 5) ⟨true, true, true, true⟩)
         = some u ∧
       u.isotopes = ["K-40"] ∧ ("Ga-68" ≠ "K-40" → u.isotopes ≠ ["Ga-68"])) :=
  ⟨by decide, pack_labels_unknown_isotope "Ga-68" (by decide) (fun _ => 5)
    ⟨true, true, true, true⟩⟩

end OpenRadiaCode

namespace OpenRadiaCode

/-- Length of a flat-mapped list of byte pairs. -/
theorem flatMap_pair_length {α : Type} (l : List α) (p q : α → ℕ) :
    (l.flatMap fun a => [p a, q a]).length = 2 * l.length := by
  induction l with
  | nil => simp
  | cons a t ih => simp [ih]; omega

/-- Even positions of a flat-mapped list of byte pairs. -/
theorem flatMap_pair_getD_even {α : Type} (l : List α) (p q : α → ℕ) :
    ∀ (k : ℕ), k < l.length → ∀ (d : ℕ) (e : α),
      (l.flatMap fun a => [p a, q a]).getD (2 * k) d = p (l.getD k e) := by
  induction l with
  | nil => intro k hk; simp at hk
  | cons a t ih =>
    intro k hk d e
    cases k with
    | zero => simp
    | succ k' =>
      have h2 : 2 * (k' + 1) = 2 * k' + 1 + 1 := by ring
      rw [h2, List.flatMap_cons]
      show (p a :: q a :: t.flatMap fun a => [p a, q a]).getD (2 * k' + 1 + 1) d = _
      rw [List.getD_cons_succ, List.getD_cons_succ]
      have hk' : k' < t.length := by simpa using hk
      rw [ih k' hk' d e]
      rfl

/-- Odd positions of a flat-mapped list of byte pairs. -/
theorem flatMap_pair_getD_odd {α : Type} (l : List α) (p q : α → ℕ) :
    ∀ (k : ℕ), k < l.length → ∀ (d : ℕ) (e : α),
      (l.flatMap fun a => [p a, q a]).getD (2 * k + 1) d = q (l.getD k e) := by
  induction l with
  | nil => intro k hk; simp at hk
  | cons a t ih =>
    intro k hk d e
    cases k with
    | zero => simp
    | succ k' =>
      have h2 : 2 * (k' + 1) + 1 = 2 * k' + 1 + 1 + 1 := by ring
      rw [h2, List.flatMap_cons]
      show (p a :: q a :: t.flatMap fun a => [p a, q a]).getD (2 * k' + 1 + 1 + 1) d = _
      rw [List.getD_cons_succ, List.getD_cons_succ]
      have hk' : k' < t.length := by simpa using hk
      rw [ih k' hk' d e]
      rfl
end OpenRadiaCode

namespace OpenRadiaCode

/-- Encoding then decoding an index recovers any name in the master list. -/
theorem indexToIsotope_isotopeIndexOf (iso : String) (h : iso ∈ masterIsotopes) :
    indexToIsotope (isotopeIndexOf iso) = iso := by
  unfold indexToIsotope isotopeIndexOf
  rw [if_pos h]
  have hlt : masterIsotopes.indexOf iso < masterIsotopes.length :=
    List.indexOf_lt_length.mpr h
  rw [dif_pos hlt]
  exact List.indexOf_get hlt

/-- The stored uint16 always fits in 16 bits. -/
theorem packedActivity_le (a : ℚ) : packedActivity a ≤ 65535 := by
  unfold packedActivity
  omega

/-- Little-endian byte reconstruction for values below 2^16. -/
theorem u16_reconstruct (s : ℕ) (hs : s ≤ 65535) :
    s % 256 + 256 * (s / 256 % 256) = s := by
  omega

/-- One quantized activity sits within one quantization step of the
original. -/
theorem decodedActivity_packedActivity_close (a : ℚ) (h0 : 0 ≤ a)
    (h1 : a ≤ 1000) :
    |decodedActivity (packedActivity a) - a| ≤ 1000/65535 := by
  have hmin : min a 1000 = a := min_eq_left h1
  have hfloor := packedActivity_eq_floor a h0
  rw [hmin] at hfloor
  have hcast : ((packedActivity a : ℕ) : ℚ) = ((⌊a * (65535/1000)⌋ : ℤ) : ℚ) := by
    exact_mod_cast hfloor
  unfold decodedActivity
  rw [hcast]
  have hle : ((⌊a * (65535/1000)⌋ : ℤ) : ℚ) ≤ a * (65535/1000) := Int.floor_le _
  have hgt : a * (65535/1000) - 1 < ((⌊a * (65535/1000)⌋ : ℤ) : ℚ) :=
    Int.sub_one_lt_floor _
  rw [abs_le]
  constructor <;> nlinarith [hle, hgt]

/-- The flag byte round-trips bitwise. -/
theorem testBit_packFlags (fl : LabelFlags) :
    Nat.testBit (packFlags fl) 0 = fl.normalized ∧
    Nat.testBit (packFlags fl) 1 = fl.include_k40 ∧
    Nat.testBit (packFlags fl) 2 = fl.include_radon ∧
    Nat.testBit (packFlags fl) 3 = fl.include_thorium := by
  obtain ⟨a, b, c, d⟩ := fl
  cases a <;> cases b <;> cases c <;> cases d <;> decide
end OpenRadiaCode

namespace OpenRadiaCode

/-- C1: full label round trip for in-range labels. -/
theorem pack_unpack_roundtrip (isotopes : List String) (activities : String → ℚ)
    (flags : LabelFlags)
    (hlen : isotopes.length ≤ 255)
    (hmem : ∀ iso ∈ isotopes, iso ∈ masterIsotopes)
    (hact : ∀ iso ∈ isotopes, 0 ≤ activities iso ∧ activities iso ≤ 1000) :
    ∃ u, unpack_labels (pack_labels isotopes activities flags) = some u ∧
      u.isotopes = isotopes ∧
      u.activityPairs = isotopes.map
        (fun iso => (iso, decodedActivity (packedActivity (activities iso)))) ∧
      (∀ iso ∈ isotopes,
        |decodedActivity (packedActivity (activities iso)) - activities iso|
          ≤ 1000/65535) ∧
      u.normalized = flags.normalized ∧ u.include_k40 = flags.include_k40 ∧
      u.include_radon = flags.include_radon ∧
      u.include_thorium = flags.include_thorium := by
  have htake : isotopes.take 255 = isotopes := List.take_of_length_le hlen
  have hminn : min isotopes.length 255 = isotopes.length := min_eq_left hlen
  have hdata : pack_labels isotopes activities flags
      = isotopes.length ::
        (isotopes.map (fun iso => isotopeIndexOf iso) ++
          ((isotopes.flatMap fun iso =>
            [packedActivity (activities iso) % 256,
             packedActivity (activities iso) / 256 % 256]) ++ [packFlags flags])) := by
    simp [pack_labels, htake, hminn, u16le]
  set idxl := isotopes.map (fun iso => isotopeIndexOf iso) with hidxl
  set actl := (isotopes.flatMap fun iso =>
      [packedActivity (activities iso) % 256,
       packedActivity (activities iso) / 256 % 256]) with hactl
  have hidxlen : idxl.length = isotopes.length := by
    rw [hidxl]; simp
  have hactlen : actl.length = 2 * isotopes.length := by
    rw [hactl]
    exact flatMap_pair_length isotopes _ _
  have hIdx : ∀ k, k < isotopes.length →
      (isotopes.length :: (idxl ++ (actl ++ [packFlags flags]))).getD (1 + k) 0
        = isotopeIndexOf (isotopes.getD k "") := by
    intro k hk
    rw [show 1 + k = k + 1 by omega, List.getD_cons_succ]
    rw [List.getD_append _ _ _ _ (by omega)]
    rw [hidxl]
    rw [show (0:ℕ) = isotopeIndexOf "" from by decide]
    exact List.getD_map isotopes "" _
  have hActE : ∀ k, k < isotopes.length →
      (isotopes.length :: (idxl ++ (actl ++ [packFlags flags]))).getD
          (1 + isotopes.length + 2 * k) 0
        = packedActivity (activities (isotopes.getD k "")) % 256 := by
    intro k hk
    rw [show 1 + isotopes.length + 2 * k = (isotopes.length + 2 * k) + 1 by omega,
      List.getD_cons_succ]
    rw [List.getD_append_right _ _ _ _ (by omega)]
    rw [show isotopes.length + 2 * k - idxl.length = 2 * k by omega]
    rw [List.getD_append _ _ _ _ (by omega)]
    rw [hactl]
    exact flatMap_pair_getD_even isotopes _ _ k hk 0 ""
  have hActO : ∀ k, k < isotopes.length →
      (isotopes.length :: (idxl ++ (actl ++ [packFlags flags]))).getD
          (1 + isotopes.length + 2 * k + 1) 0
        = packedActivity (activities (isotopes.getD k "")) / 256 % 256 := by
    intro k hk
    rw [show 1 + isotopes.length + 2 * k + 1 = (isotopes.length + 2 * k + 1) + 1 by omega,
      List.getD_cons_succ]
    rw [List.getD_append_right _ _ _ _ (by omega)]
    rw [show isotopes.length + 2 * k + 1 - idxl.length = 2 * k + 1 by omega]
    rw [List.getD_append _ _ _ _ (by omega)]
    rw [hactl]
    exact flatMap_pair_getD_odd isotopes _ _ k hk 0 ""
  have hFlag :
      (isotopes.length :: (idxl ++ (actl ++ [packFlags flags]))).getD
          (1 + 3 * isotopes.length) 0
        = packFlags flags := by
    rw [show 1 + 3 * isotopes.length = 3 * isotopes.length + 1 by omega,
      List.getD_cons_succ]
    rw [List.getD_append_right _ _ _ _ (by omega)]
    rw [List.getD_append_right _ _ _ _ (by omega)]
    rw [show 3 * isotopes.length - idxl.length - actl.length = 0 by omega]
    rfl
  have hnames : (List.range isotopes.length).map
      (fun k => indexToIsotope
        ((isotopes.length :: (idxl ++ (actl ++ [packFlags flags]))).getD (1 + k) 0))
      = isotopes := by
    apply List.ext_getElem
    · simp
    · intro k h1 h2
      simp only [List.getElem_map, List.getElem_range]
      rw [hIdx k (by simpa using h1)]
      rw [List.getD_eq_getElem _ _ h2]
      exact indexToIsotope_isotopeIndexOf _ (hmem _ (List.getElem_mem h2))
  rw [hdata]
  have hcond : 2 + 3 * isotopes.length
      ≤ (isotopes.length :: (idxl ++ (actl ++ [packFlags flags]))).length := by
    simp only [List.length_cons, List.length_append, List.length_singleton]
    omega
  simp only [unpack_labels]
  rw [if_pos hcond]
  refine ⟨_, rfl, ?_, ?_, ?_, ?_, ?_, ?_, ?_⟩
  · exact hnames
  · rw [hnames]
    apply List.ext_getElem
    · simp
    · intro k h1 h2
      simp only [List.getElem_map, List.getElem_range]
      rw [hActE k (by simpa using h1), hActO k (by simpa using h1)]
      rw [u16_reconstruct _ (packedActivity_le _)]
      rw [List.getD_eq_getElem _ _ (by simpa using h1)]
  · intro iso hiso
    exact decodedActivity_packedActivity_close _ (hact iso hiso).1 (hact iso hiso).2
  · rw [hFlag]; exact (testBit_packFlags flags).1
  · rw [hFlag]; exact (testBit_packFlags flags).2.1
  · rw [hFlag]; exact (testBit_packFlags flags).2.2.1
  · rw [hFlag]; exact (testBit_packFlags flags).2.2.2

theorem pack_unpack_roundtrip_witness :
    (([("Cs-137" : String)].length ≤ 255) ∧
     (∀ iso ∈ [("Cs-137" : String)], iso ∈ masterIsotopes) ∧
     (∀ iso ∈ [("Cs-137" : String)],
       0 ≤ (fun _ : String => (10:ℚ)) iso ∧ (fun _ : String => (10:ℚ)) iso ≤ 1000)) ∧
    ∃ u, unpack_labels (pack_labels ["Cs-137"] (fun _ => (10:ℚ))
        ⟨true, false, true, false⟩) = some u ∧
      u.isotopes = ["Cs-137"] ∧
      u.activityPairs = [("Cs-137" : String)].map
        (fun iso => (iso, decodedActivity (packedActivity ((fun _ : String => (10:ℚ)) iso)))) ∧
      (∀ iso ∈ [("Cs-137" : String)],
        |decodedActivity (packedActivity ((fun _ : String => (10:ℚ)) iso))
          - (fun _ : String => (10:ℚ)) iso| ≤ 1000/65535) ∧
      u.normalized = true ∧ u.include_k40 = false ∧
      u.include_radon = true ∧ u.include_thorium = false :=
  ⟨⟨by decide, by decide, by norm_num⟩,
   pack_unpack_roundtrip ["Cs-137"] (fun _ => (10:ℚ)) ⟨true, false, true, false⟩
     (by decide) (by decide) (by norm_num)⟩

end OpenRadiaCode

namespace OpenRadiaCode

/-- Membership in a stable descending insertion. -/
theorem mem_insertDesc {α : Type} (key : α → ℚ) (x z : α) (l : List α) :
    z ∈ insertDesc key x l ↔ z = x ∨ z ∈ l := by
  induction l with
  | nil => simp [insertDesc]
  | cons y ys ih =>
    unfold insertDesc
    by_cases h : key x < key y
    · simp [h, ih]
      tauto
    · simp [h, ih]

/-- Stable descending insertion preserves descending sortedness. -/
theorem insertDesc_sorted {α : Type} (key : α → ℚ) (x : α) (l : List α)
    (hl : l.Pairwise (fun a b => key b ≤ key a)) :
    (insertDesc key x l).Pairwise (fun a b => key b ≤ key a) := by
  induction l with
  | nil => simp [insertDesc]
  | cons y ys ih =>
    unfold insertDesc
    by_cases h : key x < key y
    · rw [if_pos h]
      rw [List.pairwise_cons] at hl ⊢
      refine ⟨fun z hz => ?_, ih hl.2⟩
      rcases (mem_insertDesc key x z ys).mp hz with rfl | hzys
      · exact le_of_lt h
      · exact hl.1 z hzys
    · rw [if_neg h]
      rw [List.pairwise_cons]
      refine ⟨fun z hz => ?_, hl⟩
      rcases List.mem_cons.mp hz with rfl | hzys
      · exact not_lt.mp h
      · exact le_trans ((List.pairwise_cons.mp hl).1 z hzys) (not_lt.mp h)

/-- Filtering on one key value commutes with stable descending insertion. -/
theorem filter_insertDesc {α : Type} (key : α → ℚ) (x : α) (l : List α) (c : ℚ) :
    (insertDesc key x l).filter (fun e => key e == c)
      = if key x == c then x :: l.filter (fun e => key e == c)
        else l.filter (fun e => key e == c) := by
  induction l with
  | nil =>
    unfold insertDesc
    by_cases h : key x == c <;> simp [h]
  | cons y ys ih =>
    unfold insertDesc
    by_cases h : key x < key y
    · rw [if_pos h]
      by_cases hy : (key y == c) = true
      · have hxc : ¬ ((key x == c) = true) := by
          have hyc : key y = c := by simpa using hy
          have hne : key x ≠ c := by rw [← hyc]; exact ne_of_lt h
          simpa using hne
        simp [List.filter_cons, hy, hxc, ih]
      · simp [List.filter_cons, hy, ih]
    · rw [if_neg h]
      by_cases hx : (key x == c) = true
      · simp [List.filter_cons, hx]
      · simp [List.filter_cons, hx]

/-- The stable descending sort is sorted descending by key. -/
theorem sortDescBy_sorted {α : Type} (key : α → ℚ) (l : List α) :
    (sortDescBy key l).Pairwise (fun a b => key b ≤ key a) := by
  induction l with
  | nil => simp [sortDescBy]
  | cons a t ih => exact insertDesc_sorted key a _ ih

/-- Stability: restricted to any one key value, the stable descending sort
returns the elements in their original order. -/
theorem sortDescBy_filter {α : Type} (key : α → ℚ) (l : List α) (c : ℚ) :
    (sortDescBy key l).filter (fun e => key e == c)
      = l.filter (fun e => key e == c) := by
  induction l with
  | nil => rfl
  | cons a t ih =>
    show (insertDesc key a (sortDescBy key t)).filter _ = _
    rw [filter_insertDesc]
    by_cases h : (key a == c) = true
    · rw [if_pos h, ih]
      simp [List.filter_cons, h]
    · rw [if_neg h, ih]
      simp [List.filter_cons, h]

/-- A filterMap only depends on the function's values on the list. -/
theorem filterMap_congr_on {α β : Type} (l : List α) (f g : α → Option β)
    (h : ∀ a ∈ l, f a = g a) : l.filterMap f = l.filterMap g := by
  induction l with
  | nil => rfl
  | cons a t ih =>
    rw [List.filterMap_cons, List.filterMap_cons, h a (by simp),
      ih (fun x hx => h x (by simp [hx]))]

/-- The code's two-step confidence computation equals the spec's formula. -/
theorem confidence_code_eq_spec (detected : Finset String) (s : ChainSignature)
    (hreq : 0 < (detected ∩ s.required_daughters).card) :
    (if 0 < s.optional_daughters.card then
        min 1 (((detected ∩ s.required_daughters).card : ℚ) / s.required_daughters.card
          + 1/10 * ((detected ∩ s.optional_daughters).card : ℚ) / s.optional_daughters.card)
      else ((detected ∩ s.required_daughters).card : ℚ) / s.required_daughters.card)
    = specConfidence s detected := by
  unfold specConfidence
  by_cases hopt : 0 < s.optional_daughters.card
  · rw [if_pos hopt, if_pos (Finset.card_pos.mp hopt)]
  · rw [if_neg hopt, if_neg (fun hne => hopt (Finset.card_pos.mpr hne)), add_zero]
    have hsub : (detected ∩ s.required_daughters).card ≤ s.required_daughters.card :=
      Finset.card_le_card Finset.inter_subset_right
    have hpos : (0:ℚ) < (s.required_daughters.card : ℚ) := by
      have h0 : 0 < s.required_daughters.card := lt_of_lt_of_le hreq hsub
      exact_mod_cast h0
    rw [min_eq_right (by rw [div_le_one hpos]; exact_mod_cast hsub)]

/-- C4: parent inference matches the spec's description — one entry per
signature with required overlap, the spec's confidence formula, sorted
descending with ties kept in registration order. -/
theorem infer_parent_from_daughters_correct (detected : Finset String) :
    infer_parent_from_daughters detected = inferParentSpec detected ∧
    (infer_parent_from_daughters detected).Pairwise (fun a b => b.2.2 ≤ a.2.2) ∧
    (∀ c : ℚ, (infer_parent_from_daughters detected).filter (fun e => e.2.2 == c)
      = (inferParentResults detected).filter (fun e => e.2.2 == c)) := by
  refine ⟨?_, sortDescBy_sorted _ _, fun c => sortDescBy_filter _ _ c⟩
  unfold infer_parent_from_daughters inferParentSpec inferParentResults
  congr 1
  apply filterMap_congr_on
  intro s _
  dsimp only
  by_cases hreq : 0 < (detected ∩ s.required_daughters).card
  · rw [if_pos hreq, if_pos (Finset.card_pos.mp hreq)]
    exact congrArg (fun conf => some (s.inferred_parent, s, conf))
      (confidence_code_eq_spec detected s hreq)
  · rw [if_neg hreq, if_neg (fun hne => hreq (Finset.card_pos.mpr hne))]

end OpenRadiaCode
